import Mathlib

/-!
Verification development for the WaveRiderSDR demodulation and
spectral-visualization pipeline (`waverider_common.py`).

All numeric state is embedded over `ℚ`.  Operations of the numeric
libraries that are transcendental or numerically designed (arctangent in
`np.angle`, cosine in `np.hamming` and the DFT twiddle factors, square
root in `np.abs`, `log10`, π, `np.unwrap`, the Chebyshev IIR filter
inside `scipy.signal.decimate`, the Butterworth tap design) are taken as
explicit function parameters: the properties proved here hold for every
instantiation of those parameters (subject to the stated hypotheses such
as `sqrt` mapping non-negatives to non-negatives), so they hold in
particular for the real-valued functions the code uses.  Everything
rational-arithmetic in the source (exponential smoothing, hysteresis,
decimation-factor computation, brightness/contrast, peak hold, clipping,
the one-pole de-emphasis filter) is embedded exactly.
-/

namespace WaveRider

/-- Elementwise clip, as `np.clip(x, lo, hi)` for `lo ≤ hi`:
`min (max x lo) hi`. -/
def clipQ (x lo hi : ℚ) : ℚ := min (max x lo) hi

/-- Python `int(q)`: truncation toward zero. -/
def truncQ (q : ℚ) : ℤ := if 0 ≤ q then ⌊q⌋ else ⌈q⌉

/-- State of `AudioDemodulator` (`waverider_common.py`, `__init__`,
lines 603–628).  `audio_filter` holds the Butterworth taps produced by
`scipy_signal.butter`; they are numerically designed constants, carried
here as opaque data supplied at construction. -/
structure AudioDemodulator where
  sample_rate : ℚ
  audio_rate : ℚ
  cutoff_freq : ℚ
  decimation : ℤ
  audio_filter : List ℚ × List ℚ
  squelch_threshold : ℚ
  squelch_enabled : Bool
  squelch_alpha : ℚ
  smoothed_power : ℚ
  last_signal_detected : Bool
  squelch_hysteresis : ℚ
  deriving Repr, DecidableEq

/-- `AudioDemodulator.__init__`: in the source
`self.decimation = int(sample_rate / audio_rate)` and the squelch state
starts at smoothed power −100 dB with no signal detected. -/
def AudioDemodulator.init (sample_rate audio_rate cutoff_freq squelch_threshold : ℚ)
    (taps : List ℚ × List ℚ) : AudioDemodulator :=
  { sample_rate := sample_rate
    audio_rate := audio_rate
    cutoff_freq := cutoff_freq
    decimation := truncQ (sample_rate / audio_rate)
    audio_filter := taps
    squelch_threshold := squelch_threshold
    squelch_enabled := true
    squelch_alpha := 1 / 10
    smoothed_power := -100
    last_signal_detected := false
    squelch_hysteresis := 3 }

/-- Mean squared magnitude of a block,
`np.mean(np.abs(iq_samples) ** 2)`.  On an empty array `np.mean`
produces NaN (with a RuntimeWarning), modelled as `none`. -/
def meanPower (iq : List (ℚ × ℚ)) : Option ℚ :=
  if iq.length = 0 then none
  else some ((iq.map (fun z => z.1 ^ 2 + z.2 ^ 2)).sum / (iq.length : ℚ))

/-- Squelch update of `AudioDemodulator.detect_signal`
(lines 643–662), taking the block's power in dB as input
(in the source `power_db = 10*log10(mean_power + 1e-10)`; the claims
about the gate quantify over this dB value).  Returns the detection
flag and the mutated state. -/
def AudioDemodulator.detect_signal (st : AudioDemodulator) (power_db : ℚ) :
    Bool × AudioDemodulator :=
  let smoothed := st.squelch_alpha * power_db + (1 - st.squelch_alpha) * st.smoothed_power
  let signal_detected :=
    if st.squelch_enabled then
      let threshold :=
        if st.last_signal_detected then st.squelch_threshold - st.squelch_hysteresis
        else st.squelch_threshold
      decide (smoothed > threshold)
    else true
  (signal_detected,
    { st with smoothed_power := smoothed, last_signal_detected := signal_detected })

/-- `AudioDemodulator.set_squelch`: clips the threshold to [−100, 0]. -/
def AudioDemodulator.set_squelch (st : AudioDemodulator) (threshold_db : ℚ) :
    AudioDemodulator :=
  { st with squelch_threshold := clipQ threshold_db (-100) 0 }

/-- `AudioDemodulator.enable_squelch`. -/
def AudioDemodulator.enable_squelch (st : AudioDemodulator) (enabled : Bool) :
    AudioDemodulator :=
  { st with squelch_enabled := enabled }

/-- The state-mutating operations available on an `AudioDemodulator`
instance after construction. -/
inductive DemodOp where
  | detect (power_db : ℚ)
  | setSquelch (t : ℚ)
  | enableSquelch (b : Bool)
  deriving Repr

/-- Apply one operation to the instance state. -/
def applyDemodOp (st : AudioDemodulator) : DemodOp → AudioDemodulator
  | .detect p => (st.detect_signal p).2
  | .setSquelch t => st.set_squelch t
  | .enableSquelch b => st.enable_squelch b

/-- Apply a sequence of operations to the instance state. -/
def applyDemodOps (ops : List DemodOp) (st : AudioDemodulator) : AudioDemodulator :=
  ops.foldl applyDemodOp st

/-- Run `detect_signal` over a list of dB power inputs, keeping the state. -/
def runDetect (st : AudioDemodulator) (ps : List ℚ) : AudioDemodulator :=
  ps.foldl (fun s p => (s.detect_signal p).2) st

/-- Iterate `detect_signal` on a constant dB power level. -/
def sustain (st : AudioDemodulator) (c : ℚ) : ℕ → AudioDemodulator
  | 0 => st
  | n + 1 => ((sustain st c n).detect_signal c).2

/-- State of `FMDemodulator`: the base demodulator state plus the FM
deviation and the last unwrapped phase carried across blocks. -/
structure FMDemodulator extends AudioDemodulator where
  deviation : ℚ
  last_phase : ℚ
  deriving Repr

/-- `FMDemodulator.__init__`: base construction with the default cutoff
15000 Hz and default squelch threshold −50 dB, `last_phase = 0`. -/
def FMDemodulator.init (sample_rate audio_rate deviation : ℚ)
    (taps : List ℚ × List ℚ) : FMDemodulator :=
  { AudioDemodulator.init sample_rate audio_rate 15000 (-50) taps with
    deviation := deviation
    last_phase := 0 }

/-- One-pole de-emphasis recursion of
`scipy_signal.lfilter([alpha], [1, alpha - 1], x)`:
`y[n] = alpha*x[n] + (1 - alpha)*y[n-1]`, zero initial condition. -/
def deemphAux (a prev : ℚ) : List ℚ → List ℚ
  | [] => []
  | x :: rest =>
    let y := a * x + (1 - a) * prev
    y :: deemphAux a y rest

/-- `FMDemodulator.demodulate` (lines 733–768).  `angle` stands for
`np.angle` on one complex sample, `unwrapF` for `np.unwrap`, `decimF`
for `scipy_signal.decimate` (given the signal and the decimation
factor), and `piQ` for π in the scaling constant; the de-emphasis
filter and the final clip are embedded exactly.  The phase difference
is `np.diff(phase, prepend=last_phase)`; the source then reads
`phase[-1]`, which raises IndexError on an empty block — modelled by
the `Except.error` branch. -/
def fm_demodulate (angle : ℚ × ℚ → ℚ) (unwrapF : List ℚ → List ℚ)
    (decimF : List ℚ → ℤ → List ℚ) (piQ : ℚ) (st : FMDemodulator)
    (iq : List (ℚ × ℚ)) : Except String (List ℚ × FMDemodulator) :=
  let phase := iq.map angle
  let phase_diff := List.zipWith (fun a b => a - b) phase (st.last_phase :: phase)
  match phase.getLast? with
  | none => Except.error "IndexError: index -1 is out of bounds for axis 0 with size 0"
  | some lp =>
    let pd := unwrapF phase_diff
    let audio := pd.map (fun x => x * st.sample_rate / (2 * piQ * st.deviation))
    let audio_decimated := decimF audio st.decimation
    let tau : ℚ := 75 / 1000000
    let a := 1 / (1 + st.audio_rate * tau)
    let audio_deemph := deemphAux a 0 audio_decimated
    let audio_norm := audio_deemph.map (fun x => clipQ x (-1) 1)
    Except.ok (audio_norm, { st with last_phase := lp })

/-- State of `WaterfallSettings` (lines 491–506). -/
structure WaterfallSettings where
  colormap : String
  min_db : ℚ
  max_db : ℚ
  contrast : ℚ
  brightness : ℚ
  averaging : ℤ
  peak_hold : Bool
  peak_decay : ℚ
  waterfall_speed : ℚ
  show_grid : Bool
  show_peak_marker : Bool
  peak_buffer : Option (List ℚ)
  deriving Repr, DecidableEq

/-- The fixed `COLORMAPS` table. -/
def COLORMAPS : List (String × String) :=
  [("viridis", "viridis"), ("plasma", "plasma"), ("inferno", "inferno"),
   ("magma", "magma"), ("hot", "hot"), ("cool", "cool"), ("rainbow", "jet"),
   ("grayscale", "gray"), ("turbo", "turbo"), ("wb", "WB")]

/-- `WaterfallSettings.__init__` defaults. -/
def WaterfallSettings.init : WaterfallSettings :=
  { colormap := "viridis"
    min_db := -80
    max_db := 0
    contrast := 1
    brightness := 0
    averaging := 1
    peak_hold := false
    peak_decay := 95 / 100
    waterfall_speed := 1
    show_grid := true
    show_peak_marker := true
    peak_buffer := none }

/-- `set_colormap`: lookup in the fixed table; unknown names are a no-op. -/
def WaterfallSettings.set_colormap (s : WaterfallSettings) (name : String) :
    WaterfallSettings :=
  match COLORMAPS.lookup name with
  | some v => { s with colormap := v }
  | none => s

/-- `set_range`: `min_db = min(min_db, max_db - 5)`, keeping at least a
5 dB range. -/
def WaterfallSettings.set_range (s : WaterfallSettings) (min_db max_db : ℚ) :
    WaterfallSettings :=
  { s with min_db := min min_db (max_db - 5), max_db := max_db }

/-- `set_contrast`: clipped to [0.1, 3.0]. -/
def WaterfallSettings.set_contrast (s : WaterfallSettings) (contrast : ℚ) :
    WaterfallSettings :=
  { s with contrast := clipQ contrast (1 / 10) 3 }

/-- `set_brightness`: clipped to [−50, 50]. -/
def WaterfallSettings.set_brightness (s : WaterfallSettings) (brightness : ℚ) :
    WaterfallSettings :=
  { s with brightness := clipQ brightness (-50) 50 }

/-- `set_averaging`: `max(1, int(frames))`. -/
def WaterfallSettings.set_averaging (s : WaterfallSettings) (frames : ℚ) :
    WaterfallSettings :=
  { s with averaging := max 1 (truncQ frames) }

/-- `apply_processing` (lines 551–575): brightness/contrast, then the
peak-hold branch (`np.maximum(processed, peak_buffer * peak_decay)`,
re-initializing on a missing or length-mismatched buffer), then
`np.clip` to `[min_db, max_db]`.  Returns the emitted frame and the
mutated settings. -/
def WaterfallSettings.apply_processing (s : WaterfallSettings) (fft_db : List ℚ) :
    List ℚ × WaterfallSettings :=
  let processed := fft_db.map (fun x => (x + s.brightness) * s.contrast)
  let step :=
    if s.peak_hold then
      match s.peak_buffer with
      | none => (processed, some processed)
      | some pb =>
        if pb.length ≠ processed.length then (processed, some processed)
        else
          let nb := List.zipWith max processed (pb.map (fun x => x * s.peak_decay))
          (nb, some nb)
    else (processed, s.peak_buffer)
  (step.1.map (fun x => clipQ x s.min_db s.max_db),
    { s with peak_buffer := step.2 })

/-- The state-mutating operations available on a `WaterfallSettings`
instance after construction. -/
inductive WOp where
  | setColormap (name : String)
  | setRange (a b : ℚ)
  | setContrast (c : ℚ)
  | setBrightness (b : ℚ)
  | setAveraging (f : ℚ)
  | applyProc (frame : List ℚ)

/-- Apply one settings operation. -/
def applyWOp (s : WaterfallSettings) : WOp → WaterfallSettings
  | .setColormap n => s.set_colormap n
  | .setRange a b => s.set_range a b
  | .setContrast c => s.set_contrast c
  | .setBrightness b => s.set_brightness b
  | .setAveraging f => s.set_averaging f
  | .applyProc frame => (s.apply_processing frame).2

/-- Apply a sequence of settings operations. -/
def applyWOps (ops : List WOp) (s : WaterfallSettings) : WaterfallSettings :=
  ops.foldl applyWOp s

/-- `np.hamming(M)`: empty for `M = 0`, `[1]` for `M = 1`, otherwise
`0.54 - 0.46*cos(2π k/(M-1))` for `k < M`.  `cos2pi t` stands for
`cos(2π t)`. -/
def hammingQ (cos2pi : ℚ → ℚ) (M : ℕ) : List ℚ :=
  if M = 1 then [1]
  else (List.range M).map (fun k => 54 / 100 - 46 / 100 * cos2pi ((k : ℚ) / ((M : ℚ) - 1)))

/-- Input adjustment of `np.fft.fft(x, n)`: crop to `n` or pad with
zeros up to `n`. -/
def fftAdjust (x : List (ℚ × ℚ)) (n : ℕ) : List (ℚ × ℚ) :=
  x.take n ++ List.replicate (n - x.length) (0, 0)

/-- Length-preserving DFT: bin `k` is `Σ_j x_j · e^(-2πi·jk/n)`, with
`cosu t`/`sinu t` standing for `cos(2π t)`/`sin(2π t)`. -/
def dft (cosu sinu : ℚ → ℚ) (x : List (ℚ × ℚ)) : List (ℚ × ℚ) :=
  let n := x.length
  (List.range n).map (fun k =>
    x.enum.foldl
      (fun acc jz =>
        let t := ((jz.1 * k : ℕ) : ℚ) / (n : ℚ)
        let c := cosu t
        let s := sinu t
        (acc.1 + jz.2.1 * c + jz.2.2 * s, acc.2 + jz.2.2 * c - jz.2.1 * s))
      ((0 : ℚ), (0 : ℚ)))

/-- `np.fft.fftshift`: roll by `n / 2`, moving the zero-frequency bin
to the center. -/
def fftshiftQ {α : Type} (l : List α) : List α :=
  l.drop (l.length - l.length / 2) ++ l.take (l.length - l.length / 2)

/-- The shifted complex spectrum of `compute_fft_db` before the
magnitude/dB step: Hamming window, `np.fft.fft(·, n)`, `fftshift`. -/
def spectrumBins (cos2pi cosu sinu : ℚ → ℚ) (samples : List (ℚ × ℚ)) (n : ℕ) :
    List (ℚ × ℚ) :=
  let window := hammingQ cos2pi samples.length
  let windowed := List.zipWith (fun z w => (z.1 * w, z.2 * w)) samples window
  fftshiftQ (dft cosu sinu (fftAdjust windowed n))

/-- `compute_fft_db(samples, fft_size)` (lines 445–469): windowed FFT,
shift, magnitude, `20·log10(magnitude + 1e-10)`.  `sq` stands for the
square root inside `np.abs` of a complex value and `lg` for `log10`;
the epsilon added before the logarithm is exact. -/
def compute_fft_db (cos2pi cosu sinu sq lg : ℚ → ℚ) (samples : List (ℚ × ℚ))
    (fft_size : Option ℕ) : List ℚ :=
  let n := fft_size.getD samples.length
  (spectrumBins cos2pi cosu sinu samples n).map
    (fun z => 20 * lg (sq (z.1 ^ 2 + z.2 ^ 2) + 1 / 10 ^ 10))

/-- The peak-hold update rule as the spec states it (for comparison
with the code's `apply_processing`): elementwise maximum of the
brightness/contrast-processed frame and the decayed previous buffer,
re-initialized to the processed frame when the buffer is missing or its
length differs from the frame's. -/
def specPeakUpdate (s : WaterfallSettings) (frame : List ℚ) : List ℚ :=
  let processed := frame.map (fun x => (x + s.brightness) * s.contrast)
  match s.peak_buffer with
  | some pb =>
    if pb.length = processed.length then
      List.zipWith max processed (pb.map (fun x => x * s.peak_decay))
    else processed
  | none => processed

/-- Clipping with an ordered range lands inside the range. -/
theorem clipQ_bounds (x lo hi : ℚ) (h : lo ≤ hi) :
    lo ≤ clipQ x lo hi ∧ clipQ x lo hi ≤ hi :=
  ⟨le_min (le_max_right x lo) h, min_le_right _ _⟩

/-- The dynamic-range invariant of `WaterfallSettings`. -/
def wfInv (s : WaterfallSettings) : Prop := s.min_db ≤ s.max_db - 5

/-- The constructor establishes the dynamic-range invariant. -/
theorem wfInv_init : wfInv WaterfallSettings.init := by
  norm_num [wfInv, WaterfallSettings.init]

/-- Every settings operation preserves the dynamic-range invariant. -/
theorem wfInv_step (s : WaterfallSettings) (op : WOp) (h : wfInv s) :
    wfInv (applyWOp s op) := by
  cases op with
  | setColormap n =>
    show wfInv (s.set_colormap n)
    unfold WaterfallSettings.set_colormap
    cases List.lookup n COLORMAPS <;> exact h
  | setRange a b =>
    show wfInv (s.set_range a b)
    exact min_le_right a (b - 5)
  | setContrast c => exact h
  | setBrightness b => exact h
  | setAveraging f => exact h
  | applyProc frame => exact h

/-- The dynamic-range invariant holds in every reachable settings state. -/
theorem wfInv_reach (ops : List WOp) (s : WaterfallSettings) (h : wfInv s) :
    wfInv (applyWOps ops s) := by
  induction ops generalizing s with
  | nil => exact h
  | cons op rest ih => exact ih _ (wfInv_step s op h)

/-- Claim C9: in every `WaterfallSettings` state reachable from
construction via any sequence of setting operations, `min_db` is at
least 5 dB below `max_db`, and every operation preserves this. -/
theorem waterfall_range_invariant (ops : List WOp) :
    (applyWOps ops WaterfallSettings.init).min_db ≤
      (applyWOps ops WaterfallSettings.init).max_db - 5 :=
  wfInv_reach ops WaterfallSettings.init wfInv_init

/-- Witness for C9 at a concrete operation sequence. -/
theorem waterfall_range_invariant_witness :
    (applyWOps [WOp.setRange 10 20, WOp.setContrast 2,
        WOp.applyProc [1, 2]] WaterfallSettings.init).min_db ≤
      (applyWOps [WOp.setRange 10 20, WOp.setContrast 2,
        WOp.applyProc [1, 2]] WaterfallSettings.init).max_db - 5 :=
  waterfall_range_invariant [WOp.setRange 10 20, WOp.setContrast 2,
    WOp.applyProc [1, 2]]

/-- Claim C5: for every input frame and every reachable
`WaterfallSettings` state, every value of the frame returned by
`apply_processing` lies within `[min_db, max_db]`. -/
theorem apply_processing_clip_range (ops : List WOp) (frame : List ℚ) (v : ℚ)
    (hv : v ∈ ((applyWOps ops WaterfallSettings.init).apply_processing frame).1) :
    (applyWOps ops WaterfallSettings.init).min_db ≤ v ∧
      v ≤ (applyWOps ops WaterfallSettings.init).max_db := by
  have hinv : wfInv (applyWOps ops WaterfallSettings.init) :=
    wfInv_reach ops WaterfallSettings.init wfInv_init
  unfold wfInv at hinv
  have hle : (applyWOps ops WaterfallSettings.init).min_db ≤
      (applyWOps ops WaterfallSettings.init).max_db := by linarith
  have hmap : ∃ x, v = clipQ x (applyWOps ops WaterfallSettings.init).min_db
      (applyWOps ops WaterfallSettings.init).max_db := by
    simp only [WaterfallSettings.apply_processing, List.mem_map] at hv
    obtain ⟨x, _, hx⟩ := hv
    exact ⟨x, hx.symm⟩
  obtain ⟨x, rfl⟩ := hmap
  exact clipQ_bounds x _ _ hle

/-- Witness for C5 at a concrete frame and the initial settings. -/
theorem apply_processing_clip_range_witness :
    (0 : ℚ) ∈ ((applyWOps [] WaterfallSettings.init).apply_processing [0]).1 ∧
      ((applyWOps [] WaterfallSettings.init).min_db ≤ 0 ∧
        (0 : ℚ) ≤ (applyWOps [] WaterfallSettings.init).max_db) :=
  ⟨by norm_num [applyWOps, WaterfallSettings.apply_processing, WaterfallSettings.init,
      clipQ, min_def, max_def],
    apply_processing_clip_range [] [0] 0
      (by norm_num [applyWOps, WaterfallSettings.apply_processing, WaterfallSettings.init,
        clipQ, min_def, max_def])⟩

/-- Claim C10: `apply_processing` mutates only the `peak_buffer` field;
all other fields are unchanged, and when peak hold is disabled no field
at all is mutated. -/
theorem apply_processing_frame_effect (s : WaterfallSettings) (frame : List ℚ) :
    (s.apply_processing frame).2.colormap = s.colormap ∧
    (s.apply_processing frame).2.min_db = s.min_db ∧
    (s.apply_processing frame).2.max_db = s.max_db ∧
    (s.apply_processing frame).2.contrast = s.contrast ∧
    (s.apply_processing frame).2.brightness = s.brightness ∧
    (s.apply_processing frame).2.averaging = s.averaging ∧
    (s.apply_processing frame).2.peak_hold = s.peak_hold ∧
    (s.apply_processing frame).2.peak_decay = s.peak_decay ∧
    (s.apply_processing frame).2.waterfall_speed = s.waterfall_speed ∧
    (s.apply_processing frame).2.show_grid = s.show_grid ∧
    (s.apply_processing frame).2.show_peak_marker = s.show_peak_marker ∧
    (s.peak_hold = false → (s.apply_processing frame).2 = s) := by
  refine ⟨rfl, rfl, rfl, rfl, rfl, rfl, rfl, rfl, rfl, rfl, rfl, fun h => ?_⟩
  cases s
  simp_all [WaterfallSettings.apply_processing]

/-- Witness for C10 at a concrete state with peak hold disabled. -/
theorem apply_processing_frame_effect_witness :
    ((WaterfallSettings.init.apply_processing [3]).2.colormap =
        WaterfallSettings.init.colormap ∧
      (WaterfallSettings.init.apply_processing [3]).2.min_db =
        WaterfallSettings.init.min_db ∧
      (WaterfallSettings.init.apply_processing [3]).2.max_db =
        WaterfallSettings.init.max_db ∧
      (WaterfallSettings.init.apply_processing [3]).2.contrast =
        WaterfallSettings.init.contrast ∧
      (WaterfallSettings.init.apply_processing [3]).2.brightness =
        WaterfallSettings.init.brightness ∧
      (WaterfallSettings.init.apply_processing [3]).2.averaging =
        WaterfallSettings.init.averaging ∧
      (WaterfallSettings.init.apply_processing [3]).2.peak_hold =
        WaterfallSettings.init.peak_hold ∧
      (WaterfallSettings.init.apply_processing [3]).2.peak_decay =
        WaterfallSettings.init.peak_decay ∧
      (WaterfallSettings.init.apply_processing [3]).2.waterfall_speed =
        WaterfallSettings.init.waterfall_speed ∧
      (WaterfallSettings.init.apply_processing [3]).2.show_grid =
        WaterfallSettings.init.show_grid ∧
      (WaterfallSettings.init.apply_processing [3]).2.show_peak_marker =
        WaterfallSettings.init.show_peak_marker ∧
      (WaterfallSettings.init.peak_hold = false →
        (WaterfallSettings.init.apply_processing [3]).2 = WaterfallSettings.init)) :=
  apply_processing_frame_effect WaterfallSettings.init [3]

/-- Claim C7: with peak hold enabled, `apply_processing` updates the
peak buffer to the elementwise maximum of the processed frame and the
decayed previous buffer (re-initializing on a missing or
length-mismatched buffer), and the emitted frame is the clipped buffer,
not the clipped instantaneous frame. -/
theorem apply_processing_peak_hold (s : WaterfallSettings) (frame : List ℚ)
    (hph : s.peak_hold = true) :
    (s.apply_processing frame).2.peak_buffer = some (specPeakUpdate s frame) ∧
    (s.apply_processing frame).1 =
      (specPeakUpdate s frame).map (fun x => clipQ x s.min_db s.max_db) := by
  unfold WaterfallSettings.apply_processing specPeakUpdate
  cases hb : s.peak_buffer with
  | none => simp [hph]
  | some pb =>
    by_cases hl : pb.length = frame.length <;> simp [hph, hl]

/-- Witness for C7: concrete state with peak hold enabled and a
length-matching buffer. -/
theorem apply_processing_peak_hold_witness :
    (let s1 : WaterfallSettings :=
      { WaterfallSettings.init with peak_hold := true, peak_buffer := some [-10] }
    s1.peak_hold = true ∧
      ((s1.apply_processing [0]).2.peak_buffer = some (specPeakUpdate s1 [0]) ∧
        (s1.apply_processing [0]).1 =
          (specPeakUpdate s1 [0]).map (fun x => clipQ x s1.min_db s1.max_db))) :=
  ⟨rfl, apply_processing_peak_hold _ [0] rfl⟩

/-- Characterization of one `detect_signal` step: the smoothing update,
the flag bookkeeping, the untouched parameters, and the hysteresis
comparison (strict, as in the source's `smoothed_power > threshold`). -/
theorem detect_signal_spec (st : AudioDemodulator) (p : ℚ) :
    (st.detect_signal p).2.smoothed_power =
      st.squelch_alpha * p + (1 - st.squelch_alpha) * st.smoothed_power ∧
    (st.detect_signal p).2.last_signal_detected = (st.detect_signal p).1 ∧
    (st.detect_signal p).2.squelch_enabled = st.squelch_enabled ∧
    (st.detect_signal p).2.squelch_alpha = st.squelch_alpha ∧
    (st.detect_signal p).2.squelch_hysteresis = st.squelch_hysteresis ∧
    (st.detect_signal p).2.squelch_threshold = st.squelch_threshold ∧
    (st.squelch_enabled = true →
      ((st.detect_signal p).1 = true ↔
        (if st.last_signal_detected then st.squelch_threshold - st.squelch_hysteresis
          else st.squelch_threshold) <
          st.squelch_alpha * p + (1 - st.squelch_alpha) * st.smoothed_power)) ∧
    (st.squelch_enabled = false → (st.detect_signal p).1 = true) := by
  unfold AudioDemodulator.detect_signal
  refine ⟨rfl, rfl, rfl, rfl, rfl, rfl, ?_, ?_⟩
  · intro hen
    simp [hen, gt_iff_lt]
  · intro hdis
    simp [hdis]

/-- The state invariant maintained by the squelch gate while the
threshold is fixed at `th`: parameters as constructed, and the smoothed
power consistent with the gate flag (above the lower hysteresis
threshold when open, at most the upper threshold when closed). -/
def squelchInv (th : ℚ) (st : AudioDemodulator) : Prop :=
  st.squelch_enabled = true ∧ st.squelch_alpha = 1 / 10 ∧
  st.squelch_hysteresis = 3 ∧ st.squelch_threshold = th ∧
  (st.last_signal_detected = true → th - 3 < st.smoothed_power) ∧
  (st.last_signal_detected = false → st.smoothed_power ≤ th)

/-- A freshly constructed demodulator satisfies the squelch invariant
whenever the threshold is at least the −100 dB initial smoothed power
(`set_squelch` keeps thresholds in [−100, 0]). -/
theorem squelchInv_init (sr ar cf th : ℚ) (taps : List ℚ × List ℚ)
    (hth : -100 ≤ th) : squelchInv th (AudioDemodulator.init sr ar cf th taps) :=
  ⟨rfl, rfl, rfl, rfl, by simp [AudioDemodulator.init], fun _ => hth⟩

/-- Every enabled `detect_signal` evaluation, on any input power,
re-establishes the squelch invariant. -/
theorem squelchInv_detect (th p : ℚ) (st : AudioDemodulator)
    (h : squelchInv th st) : squelchInv th (st.detect_signal p).2 := by
  obtain ⟨hen, ha, hh, ht, _, _⟩ := h
  obtain ⟨hsm, hflag, he2, ha2, hh2, ht2, hiff, _⟩ := detect_signal_spec st p
  refine ⟨he2.trans hen, ha2.trans ha, hh2.trans hh, ht2.trans ht, ?_, ?_⟩
  · intro hc
    rw [hflag] at hc
    have := (hiff hen).mp hc
    rw [hsm]
    cases hl : st.last_signal_detected <;> rw [hl] at this <;>
      rw [ht, hh] at this <;> simp at this <;> linarith
  · intro hc
    rw [hflag] at hc
    rw [hsm]
    by_contra hgt
    push_neg at hgt
    have hopen : (st.detect_signal p).1 = true := by
      rw [hiff hen, ht, hh]
      cases hl : st.last_signal_detected <;> simp [hl] <;> linarith
    rw [hopen] at hc
    exact Bool.noConfusion hc

/-- The squelch invariant is preserved along any run of enabled
evaluations. -/
theorem squelchInv_runDetect (th : ℚ) (ps : List ℚ) (st : AudioDemodulator)
    (h : squelchInv th st) : squelchInv th (runDetect st ps) := by
  induction ps generalizing st with
  | nil => exact h
  | cons p rest ih => exact ih _ (squelchInv_detect th p st h)

/-- On the sustained level `threshold − hysteresis/2`, a state
satisfying the squelch invariant keeps its gate flag unchanged (and the
invariant). -/
theorem squelch_sustain_step (th : ℚ) (st : AudioDemodulator)
    (h : squelchInv th st) :
    (st.detect_signal (th - 3 / 2)).2.last_signal_detected = st.last_signal_detected ∧
    squelchInv th (st.detect_signal (th - 3 / 2)).2 := by
  refine ⟨?_, squelchInv_detect th _ st h⟩
  obtain ⟨hen, ha, hh, ht, h1, h2⟩ := h
  obtain ⟨hsm, hflag, _, _, _, _, hiff, _⟩ := detect_signal_spec st (th - 3 / 2)
  rw [hflag]
  cases hl : st.last_signal_detected
  · have hs : st.smoothed_power ≤ th := h2 hl
    cases hb : (st.detect_signal (th - 3 / 2)).1
    · rfl
    · exfalso
      have := (hiff hen).mp hb
      rw [hl, ht, ha] at this
      simp at this
      linarith
  · have hs : th - 3 < st.smoothed_power := h1 hl
    refine (hiff hen).mpr ?_
    rw [hl, ht, hh, ha]
    simp
    linarith

/-- Claim C6: starting from the freshly constructed demodulator (with
any threshold reachable through `set_squelch`, i.e. ≥ −100) and after
any run of squelch evaluations, repeatedly evaluating blocks of
constant power exactly `threshold − hysteresis/2` never changes the
gate state at all — in particular the gate never both opens and closes
across the sustained level. -/
theorem squelch_no_chatter (sr ar cf th : ℚ) (taps : List ℚ × List ℚ)
    (past : List ℚ) (n : ℕ) (hth : -100 ≤ th) :
    (sustain (runDetect (AudioDemodulator.init sr ar cf th taps) past)
        (th - 3 / 2) n).last_signal_detected =
      (runDetect (AudioDemodulator.init sr ar cf th taps) past).last_signal_detected := by
  have hbase : squelchInv th (runDetect (AudioDemodulator.init sr ar cf th taps) past) :=
    squelchInv_runDetect th past _ (squelchInv_init sr ar cf th taps hth)
  suffices hmain : ∀ m,
      squelchInv th (sustain (runDetect (AudioDemodulator.init sr ar cf th taps) past)
        (th - 3 / 2) m) ∧
      (sustain (runDetect (AudioDemodulator.init sr ar cf th taps) past)
          (th - 3 / 2) m).last_signal_detected =
        (runDetect (AudioDemodulator.init sr ar cf th taps) past).last_signal_detected by
    exact (hmain n).2
  intro m
  induction m with
  | zero => exact ⟨hbase, rfl⟩
  | succ k ih =>
    obtain ⟨hinv, heq⟩ := ih
    obtain ⟨hstep, hinv2⟩ := squelch_sustain_step th _ hinv
    exact ⟨hinv2, hstep.trans heq⟩

/-- Witness for C6 at concrete rates, threshold −50 dB, a prior run of
two evaluations, and three sustained evaluations at −51.5 dB. -/
theorem squelch_no_chatter_witness :
    (-100 : ℚ) ≤ -50 ∧
      (sustain (runDetect (AudioDemodulator.init 2400000 48000 15000 (-50) ([], []))
          [-60, -45]) (-50 - 3 / 2) 3).last_signal_detected =
        (runDetect (AudioDemodulator.init 2400000 48000 15000 (-50) ([], []))
          [-60, -45]).last_signal_detected :=
  ⟨by norm_num,
    squelch_no_chatter 2400000 48000 15000 (-50) ([], []) [-60, -45] 3 (by norm_num)⟩

/-- Claim C1 (amended): with squelch enabled, the gate is reported open
exactly when the previous state was closed and the new smoothed power
strictly exceeds the threshold, or the previous state was open and the
new smoothed power strictly exceeds threshold − hysteresis; the
constructed initial gate state is closed.  (The source compares with
`>`, not `≥`.) -/
theorem detect_signal_open_iff (st : AudioDemodulator) (p sr ar cf th : ℚ)
    (taps : List ℚ × List ℚ) (hen : st.squelch_enabled = true) :
    ((st.detect_signal p).1 = true ↔
      (st.last_signal_detected = false ∧
        st.squelch_threshold < (st.detect_signal p).2.smoothed_power) ∨
      (st.last_signal_detected = true ∧
        st.squelch_threshold - st.squelch_hysteresis <
          (st.detect_signal p).2.smoothed_power)) ∧
    (AudioDemodulator.init sr ar cf th taps).last_signal_detected = false := by
  refine ⟨?_, rfl⟩
  obtain ⟨hsm, _, _, _, _, _, hiff, _⟩ := detect_signal_spec st p
  rw [hsm, hiff hen]
  cases hl : st.last_signal_detected <;> simp [hl]

/-- Witness for C1 at the freshly constructed demodulator (squelch
enabled) and input power −40 dB. -/
theorem detect_signal_open_iff_witness :
    (let st0 := AudioDemodulator.init 2400000 48000 15000 (-50) ([], [])
    st0.squelch_enabled = true ∧
      (((st0.detect_signal (-40)).1 = true ↔
        (st0.last_signal_detected = false ∧
          st0.squelch_threshold < (st0.detect_signal (-40)).2.smoothed_power) ∨
        (st0.last_signal_detected = true ∧
          st0.squelch_threshold - st0.squelch_hysteresis <
            (st0.detect_signal (-40)).2.smoothed_power)) ∧
      (AudioDemodulator.init 2400000 48000 15000 (-50) ([], [])).last_signal_detected =
        false)) :=
  ⟨rfl, detect_signal_open_iff (AudioDemodulator.init 2400000 48000 15000 (-50) ([], []))
    (-40) 2400000 48000 15000 (-50) ([], []) rfl⟩

/-- Counterexample to C1 as stated: with the smoothed power landing
exactly on the threshold (previous state closed), the claim's `≥`
condition holds but the gate stays closed, because the source compares
strictly. -/
theorem squelch_geq_refuted :
    (let st : AudioDemodulator :=
      { sample_rate := 2400000, audio_rate := 48000, cutoff_freq := 15000,
        decimation := 50, audio_filter := ([], []), squelch_threshold := -50,
        squelch_enabled := true, squelch_alpha := 1 / 10, smoothed_power := -50,
        last_signal_detected := false, squelch_hysteresis := 3 }
    st.last_signal_detected = false ∧
      (st.detect_signal (-50)).2.smoothed_power ≥ st.squelch_threshold ∧
      (st.detect_signal (-50)).1 = false) := by
  refine ⟨rfl, ?_, ?_⟩ <;> norm_num [AudioDemodulator.detect_signal]

/-- Claim C8: with squelch disabled, `detect_signal` always reports the
gate open, and the smoothed power is updated by the same
exponential-smoothing rule as in the enabled case. -/
theorem detect_signal_disabled (st : AudioDemodulator) (p : ℚ)
    (hdis : st.squelch_enabled = false) :
    (st.detect_signal p).1 = true ∧
    (st.detect_signal p).2.smoothed_power =
      st.squelch_alpha * p + (1 - st.squelch_alpha) * st.smoothed_power ∧
    (st.detect_signal p).2.smoothed_power =
      ((st.enable_squelch true).detect_signal p).2.smoothed_power :=
  ⟨(detect_signal_spec st p).2.2.2.2.2.2.2 hdis, rfl, rfl⟩

/-- Witness for C8 at a concrete disabled demodulator and input −40 dB. -/
theorem detect_signal_disabled_witness :
    (let st1 := (AudioDemodulator.init 2400000 48000 15000 (-50)
      ([], [])).enable_squelch false
    st1.squelch_enabled = false ∧
      ((st1.detect_signal (-40)).1 = true ∧
        (st1.detect_signal (-40)).2.smoothed_power =
          st1.squelch_alpha * (-40) + (1 - st1.squelch_alpha) * st1.smoothed_power ∧
        (st1.detect_signal (-40)).2.smoothed_power =
          ((st1.enable_squelch true).detect_signal (-40)).2.smoothed_power)) :=
  ⟨rfl, detect_signal_disabled
    ((AudioDemodulator.init 2400000 48000 15000 (-50) ([], [])).enable_squelch false)
    (-40) rfl⟩

/-- No post-construction operation touches the decimation field. -/
theorem applyDemodOp_decimation (st : AudioDemodulator) (op : DemodOp) :
    (applyDemodOp st op).decimation = st.decimation := by
  cases op <;> rfl

/-- A successful FM demodulation leaves the decimation factor
unchanged (only `last_phase` is reassigned). -/
theorem fm_demodulate_decimation (angle : ℚ × ℚ → ℚ) (unwrapF : List ℚ → List ℚ)
    (decimF : List ℚ → ℤ → List ℚ) (piQ : ℚ) (fm : FMDemodulator)
    (iq : List (ℚ × ℚ)) (a : List ℚ) (fm2 : FMDemodulator)
    (hok : fm_demodulate angle unwrapF decimF piQ fm iq = Except.ok (a, fm2)) :
    fm2.decimation = fm.decimation := by
  cases hgl : (List.map angle iq).getLast? with
  | none =>
    simp only [fm_demodulate, hgl] at hok
    exact Except.noConfusion hok
  | some lp =>
    simp only [fm_demodulate, hgl, Except.ok.injEq, Prod.mk.injEq] at hok
    rw [← hok.2]

/-- Claim C2 (amended): the decimation factor set at construction is
the truncation toward zero of `sample_rate / audio_rate` (Python
`int(...)`, not `round`, and possibly 0 when the audio rate exceeds the
sample rate), and it remains fixed: no squelch operation and no FM
demodulation reassigns it. -/
theorem decimation_trunc_fixed (sr ar cf th : ℚ) (taps : List ℚ × List ℚ)
    (ops : List DemodOp) (angle : ℚ × ℚ → ℚ) (unwrapF : List ℚ → List ℚ)
    (decimF : List ℚ → ℤ → List ℚ) (piQ : ℚ) (fm : FMDemodulator)
    (iq : List (ℚ × ℚ)) (a : List ℚ) (fm2 : FMDemodulator)
    (hok : fm_demodulate angle unwrapF decimF piQ fm iq = Except.ok (a, fm2)) :
    (applyDemodOps ops (AudioDemodulator.init sr ar cf th taps)).decimation =
      truncQ (sr / ar) ∧ fm2.decimation = fm.decimation := by
  constructor
  · have hfix : ∀ (l : List DemodOp) (st : AudioDemodulator),
        (applyDemodOps l st).decimation = st.decimation := by
      intro l
      induction l with
      | nil => intro st; rfl
      | cons o rest ih =>
        intro st
        exact (ih (applyDemodOp st o)).trans (applyDemodOp_decimation st o)
    exact hfix ops (AudioDemodulator.init sr ar cf th taps)
  · exact fm_demodulate_decimation angle unwrapF decimF piQ fm iq a fm2 hok

/-- Witness for C2 at concrete rates and a concrete successful FM
demodulation. -/
theorem decimation_trunc_fixed_witness :
    (applyDemodOps [DemodOp.detect (-40), DemodOp.setSquelch (-60)]
        (AudioDemodulator.init 2400000 48000 15000 (-50) ([], []))).decimation =
      truncQ (2400000 / 48000) ∧
    (FMDemodulator.init 2400000 48000 75000 ([], [])).decimation =
      (FMDemodulator.init 2400000 48000 75000 ([], [])).decimation :=
  decimation_trunc_fixed 2400000 48000 15000 (-50) ([], [])
    [DemodOp.detect (-40), DemodOp.setSquelch (-60)] (fun _ => 0) id
    (fun _ _ => []) 3 (FMDemodulator.init 2400000 48000 75000 ([], [])) [(1, 0)]
    [] (FMDemodulator.init 2400000 48000 75000 ([], [])) rfl

/-- Counterexample to C2 as stated: for input rate 2.6 MHz and output
rate 1 MHz the code computes decimation 2 while rounding gives 3, and
for input 24 kHz with output 48 kHz the code computes decimation 0,
violating the claimed lower bound 1. -/
theorem decimation_round_refuted :
    (AudioDemodulator.init 2600000 1000000 15000 (-50) ([], [])).decimation = 2 ∧
    round ((2600000 : ℚ) / 1000000) = 3 ∧
    (AudioDemodulator.init 24000 48000 15000 (-50) ([], [])).decimation = 0 := by
  refine ⟨?_, ?_, ?_⟩
  · norm_num [AudioDemodulator.init, truncQ]
  · norm_num [round_eq]
  · norm_num [AudioDemodulator.init, truncQ]

/-- Claim C3 (amended): an empty block is not handled locally — the
mean power of an empty block is undefined (`np.mean` of an empty array
is NaN, modelled `none`), not a very-low sentinel, and
`FMDemodulator.demodulate` raises an IndexError reading the last phase
of the empty phase array instead of returning an empty audio block.
This holds for every instantiation of the abstracted numeric
operations. -/
theorem empty_block_error (angle : ℚ × ℚ → ℚ) (unwrapF : List ℚ → List ℚ)
    (decimF : List ℚ → ℤ → List ℚ) (piQ : ℚ) (fm : FMDemodulator) :
    meanPower [] = none ∧
    fm_demodulate angle unwrapF decimF piQ fm [] =
      Except.error "IndexError: index -1 is out of bounds for axis 0 with size 0" :=
  ⟨rfl, rfl⟩

/-- Witness for C3 at one concrete instantiation of the abstracted
operations. -/
theorem empty_block_error_witness :
    meanPower [] = none ∧
    fm_demodulate (fun z => z.2) id (fun _ _ => []) (22 / 7)
        (FMDemodulator.init 1000000 50000 5000 ([], [])) [] =
      Except.error "IndexError: index -1 is out of bounds for axis 0 with size 0" :=
  empty_block_error (fun z => z.2) id (fun _ _ => []) (22 / 7)
    (FMDemodulator.init 1000000 50000 5000 ([], []))

/-- Counterexample to C3 as stated: on the empty block the squelch
power estimate is undefined rather than a sentinel, and the FM
demodulator propagates an error rather than returning an empty audio
result. -/
theorem empty_block_refuted :
    meanPower [] = none ∧
    fm_demodulate (fun z => z.1) id (fun l _ => l) 3
        (FMDemodulator.init 2400000 48000 75000 ([], [])) [] =
      Except.error "IndexError: index -1 is out of bounds for axis 0 with size 0" :=
  ⟨rfl, rfl⟩

/-- The FFT input adjustment always yields exactly `n` samples. -/
theorem fftAdjust_length (x : List (ℚ × ℚ)) (n : ℕ) : (fftAdjust x n).length = n := by
  simp [fftAdjust]
  omega

/-- The DFT preserves the number of bins. -/
theorem dft_length (cosu sinu : ℚ → ℚ) (x : List (ℚ × ℚ)) :
    (dft cosu sinu x).length = x.length := by
  simp [dft]

/-- The shift reorders without changing length. -/
theorem fftshiftQ_length {α : Type} (l : List α) : (fftshiftQ l).length = l.length := by
  simp [fftshiftQ]

/-- The shifted spectrum has exactly the requested number of bins. -/
theorem spectrumBins_length (cos2pi cosu sinu : ℚ → ℚ) (samples : List (ℚ × ℚ))
    (n : ℕ) : (spectrumBins cos2pi cosu sinu samples n).length = n := by
  simp [spectrumBins, fftshiftQ_length, dft_length, fftAdjust_length]

/-- Claim C4: for every non-empty block and every requested FFT size,
`compute_fft_db` returns exactly `fft_size` values (defaulting to the
block length), and for every bin the quantity fed to the logarithm —
the magnitude plus the 1e-10 epsilon — is strictly positive, so no bin
produces a non-finite dB value, including for an all-zero block.  `sq`
is the square root inside `np.abs`, assumed only to map non-negatives
to non-negatives. -/
theorem compute_fft_db_length_pos (cos2pi cosu sinu sq lg : ℚ → ℚ)
    (samples : List (ℚ × ℚ)) (fft_size : Option ℕ) (z : ℚ × ℚ)
    (_hne : samples ≠ [])
    (hsq : ∀ x : ℚ, 0 ≤ x → 0 ≤ sq x)
    (_hz : z ∈ spectrumBins cos2pi cosu sinu samples (fft_size.getD samples.length)) :
    (compute_fft_db cos2pi cosu sinu sq lg samples fft_size).length =
      fft_size.getD samples.length ∧
    0 < sq (z.1 ^ 2 + z.2 ^ 2) + 1 / 10 ^ 10 := by
  constructor
  · simp [compute_fft_db, spectrumBins_length]
  · have h0 : (0 : ℚ) ≤ z.1 ^ 2 + z.2 ^ 2 := by positivity
    have h1 := hsq _ h0
    have h2 : (0 : ℚ) < 1 / 10 ^ 10 := by norm_num
    linarith

/-- Witness for C4 at the all-zero one-sample block with the default
FFT size. -/
theorem compute_fft_db_length_pos_witness :
    (compute_fft_db (fun _ => 1) (fun _ => 1) (fun _ => 0) id id
        [((0 : ℚ), (0 : ℚ))] none).length = (Option.none).getD [((0 : ℚ), (0 : ℚ))].length ∧
    (0 : ℚ) < id ((0 : ℚ) ^ 2 + (0 : ℚ) ^ 2) + 1 / 10 ^ 10 :=
  compute_fft_db_length_pos (fun _ => 1) (fun _ => 1) (fun _ => 0) id id
    [((0 : ℚ), (0 : ℚ))] none ((0 : ℚ), (0 : ℚ)) (by simp) (fun x h => h)
    (by simp [spectrumBins, hammingQ, fftAdjust, dft, fftshiftQ])

end WaveRider
